import Mathlib

/-!
Verification of the myakumyaku_py reservation core (FullAutoReserver.py /
ManualReserver.py) against its natural-language specification.

The Python source is shallowly embedded: Python strings become `List Char`
(slicing is positional over code points), dictionaries become association
lists, machine integers become `Nat`/`Int` with Python's `%` modelled by
`Int.emod` (which agrees with Python's `%` for a positive modulus), and
code that can raise becomes `Option`-valued.  Background loops are embedded
as explicit recursion over a list of observed events (responses, ticks),
and the shared mutable globals become explicit state records.
-/

namespace Myaku

/-! ## Python string primitives used by `adjust_time_for_post` -/

/-- Decimal value of a character as accepted by CPython `int()`.
CPython `int()` accepts any Unicode character of category Nd; the
repertoire relevant to this development is the ASCII digits
`'0'..'9'` (U+0030..U+0039) and the fullwidth digits `'０'..'９'`
(U+FF10..U+FF19).  Characters with the Unicode digit property that are
not of category Nd (superscripts) are rejected by `int()` and yield
`none`. -/
def pyIntDigitVal (c : Char) : Option Nat :=
  if 48 ≤ c.toNat ∧ c.toNat ≤ 57 then some (c.toNat - 48)
  else if 65296 ≤ c.toNat ∧ c.toNat ≤ 65305 then some (c.toNat - 65296)
  else none

/-- Models CPython `str.isdigit` on a single character for the repertoire
relevant to this development: true on category-Nd decimal digits (ASCII
and fullwidth, the characters `pyIntDigitVal` accepts) and also on the
superscript digits `¹`, `²`, `³` (U+00B9, U+00B2, U+00B3), which have the
Unicode digit property but are not accepted by `int()`. -/
def pyIsDigitChar (c : Char) : Bool :=
  (pyIntDigitVal c).isSome || c.toNat = 185 || c.toNat = 178 || c.toNat = 179

/-- Models CPython `str.isdigit` on a whole string (`List Char`):
false on the empty string, otherwise true iff every character is a
digit character. -/
def pyIsDigit (s : List Char) : Bool :=
  !s.isEmpty && s.all pyIsDigitChar

/-- Models CPython `int(s)` on a candidate digit string: `none` when the
string is empty or contains a character `int()` rejects (a `ValueError`),
otherwise the base-10 value. -/
def pyIntOfDigits (s : List Char) : Option Nat :=
  if s.isEmpty then none
  else s.foldl (fun acc c => acc.bind fun a => (pyIntDigitVal c).map fun v => 10 * a + v)
    (some 0)

/-- Character for a decimal digit value, `digitChar 5 = '5'`. -/
def digitChar (n : Nat) : Char := Char.ofNat (48 + n)

/-- Models the Python format `f"\x7bn:02d\x7d"` for `n < 100` (the only
values that occur: hours are below 24 and minutes below 60): a two-digit
zero-padded decimal rendering. -/
def pad2 (n : Nat) : List Char := [digitChar (n / 10 % 10), digitChar (n % 10)]

/-- Models `adjustments.get(pavilion, 0)`: the per-venue signed-minute
offset from the offset table, defaulting to `0` when the venue is absent. -/
def lookupOffset (adjustments : List (String × Int)) (pavilion : String) : Int :=
  (List.lookup pavilion adjustments).getD 0

/-- Embedding of `adjust_time_for_post(pavilion, t)` (identical in
FullAutoReserver.py lines 295-316 and ManualReserver.py lines 95-127),
with the loaded offset table passed explicitly.  The guard is Python's
`not t.isdigit() or len(t) != 4`, returning the input unchanged; then
`hh, mm = int(t[:2]), int(t[2:])` (a `ValueError` from `int` is modelled
by `none`), `total = (hh*60 + mm + offset) % (24*60)` and the result is
rendered with `divmod(total, 60)` zero-padded to 2+2 digits. -/
def adjust_time_for_post (adjustments : List (String × Int)) (pavilion : String)
    (t : List Char) : Option (List Char) :=
  if ¬(pyIsDigit t = true ∧ t.length = 4) then some t
  else
    match pyIntOfDigits (t.take 2), pyIntOfDigits (t.drop 2) with
    | some hh, some mm =>
      let offset : Int := lookupOffset adjustments pavilion
      let total : Int := ((hh : Int) * 60 + (mm : Int) + offset) % (24 * 60)
      some (pad2 (total.toNat / 60) ++ pad2 (total.toNat % 60))
    | _, _ => none

/-! Specification-side definitions for the Time Adjuster claim (C4),
written from the spec's words: convert the 4-digit string to
minutes-since-midnight, add the offset, reduce modulo 1440, convert back
to zero-padded HHMM. -/

/-- A character is one of the 4 ASCII digits `'0'..'9'`. -/
def isAsciiDigitChar (c : Char) : Bool := 48 ≤ c.toNat && c.toNat ≤ 57

/-- Value of an ASCII digit character. -/
def asciiVal (c : Char) : Nat := c.toNat - 48

/-- Spec-side `toMinutes`: minutes since midnight of a 4-digit HHMM
string (0 on other shapes, never used there). -/
def toMinutes : List Char → Int
  | [h1, h2, m1, m2] =>
      ((60 * (10 * asciiVal h1 + asciiVal h2) + (10 * asciiVal m1 + asciiVal m2) : Nat) : Int)
  | _ => 0

/-- Spec-side rendering of a minute count back to zero-padded HHMM. -/
def hhmmOfMinutes (m : Nat) : List Char := pad2 (m / 60) ++ pad2 (m % 60)

end Myaku

namespace Myaku

/-! ## Time Adjuster lemmas (claims C4, C5) -/

theorem pyIntDigitVal_ascii (c : Char) (h : isAsciiDigitChar c = true) :
    pyIntDigitVal c = some (c.toNat - 48) := by
  unfold isAsciiDigitChar at h
  simp only [Bool.and_eq_true, decide_eq_true_eq] at h
  unfold pyIntDigitVal
  rw [if_pos ⟨h.1, h.2⟩]

theorem pyIsDigitChar_of_ascii (c : Char) (h : isAsciiDigitChar c = true) :
    pyIsDigitChar c = true := by
  unfold pyIsDigitChar
  rw [pyIntDigitVal_ascii c h]
  simp

theorem pyInt_two (a b : Char) (ha : isAsciiDigitChar a = true) (hb : isAsciiDigitChar b = true) :
    pyIntOfDigits [a, b] = some (10 * (a.toNat - 48) + (b.toNat - 48)) := by
  unfold pyIntOfDigits
  simp [List.foldl, pyIntDigitVal_ascii a ha, pyIntDigitVal_ascii b hb]

/-- Claim C4: for every 4-digit (ASCII) time string `t` and the integer
offset the offset table assigns to the venue (default 0 when the venue is
absent), `adjust_time_for_post` returns exactly
`(toMinutes t + offset) mod 1440` converted back to zero-padded HHMM. -/
theorem adjust_time_mod_formula (t : List Char)
    (hd : ∀ c ∈ t, isAsciiDigitChar c = true) (hl : t.length = 4)
    (adjustments : List (String × Int)) (pavilion : String) :
    adjust_time_for_post adjustments pavilion t =
      some (hhmmOfMinutes ((toMinutes t + lookupOffset adjustments pavilion) % 1440).toNat) := by
  rcases t with _ | ⟨c1, _ | ⟨c2, _ | ⟨c3, _ | ⟨c4, _ | ⟨c5, t⟩⟩⟩⟩⟩ <;> simp at hl
  have h1 := hd c1 (by simp)
  have h2 := hd c2 (by simp)
  have h3 := hd c3 (by simp)
  have h4 := hd c4 (by simp)
  have hdig : pyIsDigit [c1, c2, c3, c4] = true := by
    unfold pyIsDigit
    simp [pyIsDigitChar_of_ascii _ h1, pyIsDigitChar_of_ascii _ h2,
      pyIsDigitChar_of_ascii _ h3, pyIsDigitChar_of_ascii _ h4]
  unfold adjust_time_for_post
  rw [if_neg (by simp [hdig])]
  simp only [List.take, List.drop]
  rw [pyInt_two c1 c2 h1 h2, pyInt_two c3 c4 h3 h4]
  unfold toMinutes hhmmOfMinutes asciiVal
  have key : ((10 * (c1.toNat - 48) + (c2.toNat - 48) : Nat) : Int) * 60
      + ((10 * (c3.toNat - 48) + (c4.toNat - 48) : Nat) : Int)
      + lookupOffset adjustments pavilion
      = ((60 * (10 * (c1.toNat - 48) + (c2.toNat - 48))
         + (10 * (c3.toNat - 48) + (c4.toNat - 48)) : Nat) : Int)
        + lookupOffset adjustments pavilion := by
    push_cast
    ring
  simp only []
  rw [key]
  norm_num

/-- Witness for claim C4: the spec's two examples, with a `-10`-minute
offset configured for venue `H1H9`: `adjust("1845") = "1835"` and
`adjust("0005") = "2355"` (wraparound past midnight). -/
theorem adjust_time_mod_formula_examples :
    adjust_time_for_post [("H1H9", (-10 : Int))] "H1H9" ['1', '8', '4', '5']
        = some ['1', '8', '3', '5'] ∧
    adjust_time_for_post [("H1H9", (-10 : Int))] "H1H9" ['0', '0', '0', '5']
        = some ['2', '3', '5', '5'] := by
  constructor
  · rw [adjust_time_mod_formula ['1', '8', '4', '5'] (by decide) (by decide)
      [("H1H9", (-10 : Int))] "H1H9"]
    decide
  · rw [adjust_time_mod_formula ['0', '0', '0', '5'] (by decide) (by decide)
      [("H1H9", (-10 : Int))] "H1H9"]
    decide

/-- Counterexample to claim C5 as stated: the fullwidth-digit string
`"１８４５"` is not made of ASCII digits, yet `adjust_time_for_post` does
not return it unchanged — Python's `str.isdigit` accepts fullwidth
decimal digits and `int()` parses them, so the call returns the adjusted
ASCII string `"1845"`. -/
theorem adjust_fullwidth_not_unchanged :
    adjust_time_for_post [] "H1H9" ['１', '８', '４', '５'] = some ['1', '8', '4', '5'] ∧
    (['１', '８', '４', '５'] : List Char).all isAsciiDigitChar = false ∧
    (['1', '8', '4', '5'] : List Char) ≠ ['１', '８', '４', '５'] := by
  refine ⟨by decide, by decide, by decide⟩

/-- Claim C5 (amended): every input that is not exactly 4 characters
accepted by Python's `str.isdigit` (e.g. `"abcd"`, `"123"`) is returned
unchanged with no error; strings of 4 non-ASCII decimal digits pass the
guard and are converted instead, and 4 digit-property characters that
`int()` rejects (superscripts) raise an uncaught `ValueError`. -/
theorem adjust_malformed_unchanged
    (adjustments : List (String × Int)) (pavilion : String) (t : List Char)
    (h : ¬(pyIsDigit t = true ∧ t.length = 4)) :
    adjust_time_for_post adjustments pavilion t = some t ∧
    adjust_time_for_post [] "H1H9" ['²', '²', '²', '²'] = none := by
  refine ⟨?_, by decide⟩
  unfold adjust_time_for_post
  rw [if_pos h]

/-- Witness for the amended claim C5: `"abcd"` is returned unchanged. -/
theorem adjust_malformed_unchanged_abcd :
    adjust_time_for_post [] "H1H9" ['a', 'b', 'c', 'd'] = some ['a', 'b', 'c', 'd'] :=
  (adjust_malformed_unchanged [] "H1H9" ['a', 'b', 'c', 'd'] (by decide)).1

end Myaku

namespace Myaku

/-! ## Submission Racer (claims C1, C6) -/

/-- An HTTP response to a reservation POST, as classified by the code
after `r.json()` parsing: the status code, whether the parsed body equals
the empty JSON object (a parse failure also yields the empty dict in both
sources), and whether the body contains the key
`user_visiting_reservation_ids`. -/
structure Resp where
  status : Nat
  emptyObj : Bool
  hasResIds : Bool
deriving DecidableEq, Repr

/-- The FullAutoReserver run-state globals touched by the POST retry loop
of `monitor_task`: the running flag, `current_state`, the last status
code with its consecutive count, and (for this model) the number of POST
requests issued so far. -/
structure RaceSt where
  running : Bool
  cs : String
  lastSC : Option Nat
  scCount : Nat
  posts : Nat
deriving DecidableEq, Repr

/-- One iteration's bookkeeping of the POST loop (FullAutoReserver.py
lines 384-392): one more POST is issued and the consecutive status-code
counter is incremented when the code repeats, otherwise reset to 1. -/
def postIter (r : Resp) (st : RaceSt) : RaceSt :=
  if some r.status = st.lastSC then
    { st with posts := st.posts + 1, scCount := st.scCount + 1 }
  else
    { st with posts := st.posts + 1, lastSC := some r.status, scCount := 1 }

/-- Embedding of the POST retry loop `while running and time.time() < end_time`
of `monitor_task` (FullAutoReserver.py lines 383-418).  `now` is the
current clock reading and `endT = start + post_duration`; `evs` supplies,
for each iteration the loop could still run, the response it receives and
the time that iteration consumes (request plus the random sleep).  The
returned Bool is true iff the loop returned through the success branch
(HTTP 200 with empty-object body: `running = False`,
`current_state = "success"`, immediate return). -/
def monitor_post_loop (endT : Nat) : Nat → List (Resp × Nat) → RaceSt → RaceSt × Bool
  | _, [], st => ((st, false) : RaceSt × Bool)
  | now, (r, dt) :: rest, st =>
    if st.running ∧ now < endT then
      let st1 := postIter r st
      if r.status = 200 ∧ r.emptyObj = true then
        ({ st1 with running := false, cs := "success" }, true)
      else
        monitor_post_loop endT (now + dt) rest st1
    else (st, false)

/-- The code after the POST loop of `monitor_task` (FullAutoReserver.py
lines 420-423): when the loop ended without the success return, the state
goes back to `"monitoring"` and the status counters are reset. -/
def monitor_post_phase (endT now : Nat) (evs : List (Resp × Nat)) (st : RaceSt) :
    RaceSt × Bool :=
  match monitor_post_loop endT now evs st with
  | (st1, true) => (st1, true)
  | (st1, false) => ({ st1 with cs := "monitoring", lastSC := none, scCount := 0 }, false)

/-- The ManualReserver globals touched by `send_single_request`:
the running flag and the last status code with its consecutive count. -/
structure MSt where
  running : Bool
  lastSC : Option Nat
  scCount : Nat
deriving DecidableEq, Repr

/-- Embedding of the response-handling body of `send_single_request`
(ManualReserver.py lines 389-422): update the consecutive status-code
counter, then classify — HTTP 200 whose body contains
`user_visiting_reservation_ids` or is the empty object means success and
clears the running flag; anything else leaves the flag alone. -/
def send_single_request (r : Resp) (st : MSt) : MSt :=
  let st1 :=
    if some r.status = st.lastSC then { st with scCount := st.scCount + 1 }
    else { st with lastSC := some r.status, scCount := 1 }
  if r.status = 200 ∧ (r.hasResIds = true ∨ r.emptyObj = true) then
    { st1 with running := false }
  else st1

/-- Wrapper adding the transport-exception path of `send_single_request`:
the whole body runs under `try`, so on a request exception (`none`) the
state is unchanged. -/
def send_single_request_opt : Option Resp → MSt → MSt
  | none, st => st
  | some r, st => send_single_request r st

/-- Python truthiness of the `time_limit` argument of `reservation_task`:
`None` and `0` are falsy, any other number is truthy. -/
def pyTruthyTL : Option Nat → Bool
  | none => false
  | some n => n ≠ 0

/-- Embedding of the dispatch loop of `reservation_task`
(ManualReserver.py lines 473-492).  Arguments: the time limit, the fixed
sleep `min_interval`, the start timestamp, the current clock, remaining
fuel (the loop runs until the shared running flag is cleared
asynchronously; fuel bounds how many iterations we observe), the running
flag as read at the loop head, and the request count so far.  Returns the
total number of reservation requests dispatched.  The body: exit when
`running` is false; break when `time_limit` is truthy and the elapsed
time reached it; otherwise dispatch one fire-and-forget request and
sleep. -/
def reservation_loop (tl : Option Nat) (step : Nat) (startT : Nat) :
    Nat → Nat → Bool → Nat → Nat
  | _, 0, _, count => count
  | now, fuel + 1, running, count =>
    if running then
      if pyTruthyTL tl = true ∧ now - startT ≥ tl.getD 0 then count
      else reservation_loop tl step startT (now + step) fuel running (count + 1)
    else count

end Myaku

namespace Myaku

/-- Claim C1: the iteration of the Submission Racer whose response is
classified as HTTP 200 with an empty JSON-object body sets the phase to
`"success"`, clears the running flag and returns immediately — the
result is independent of any responses still to come (`rest` does not
appear on the right-hand side), and exactly the one POST of that
iteration was issued.  In the fire-and-forget variant, a 200 response
whose body contains the reservation-id key likewise clears the running
flag, and the dispatch loop issues no request once the flag is false. -/
theorem racer_success_stops_run (endT now : Nat) (r : Resp) (dt : Nat)
    (rest : List (Resp × Nat)) (st : RaceSt)
    (h1 : st.running = true) (h2 : now < endT)
    (h3 : r.status = 200) (h4 : r.emptyObj = true) :
    monitor_post_loop endT now ((r, dt) :: rest) st
        = ({ postIter r st with running := false, cs := "success" }, true) ∧
    ({ postIter r st with running := false, cs := "success" } : RaceSt).posts
        = st.posts + 1 ∧
    (∀ (r2 : Resp) (m : MSt), r2.status = 200 → r2.hasResIds = true →
      (send_single_request r2 m).running = false) ∧
    (∀ tl step startT now2 fuel count,
      reservation_loop tl step startT now2 fuel false count = count) := by
  refine ⟨?_, ?_, ?_, ?_⟩
  · unfold monitor_post_loop
    rw [if_pos ⟨by simp [h1], h2⟩, if_pos ⟨h3, h4⟩]
  · unfold postIter
    split <;> rfl
  · intro r2 m hs hk
    unfold send_single_request
    rw [if_pos ⟨hs, Or.inl hk⟩]
  · intro tl step startT now2 fuel count
    cases fuel <;> simp [reservation_loop]

/-- Witness for claim C1: a run whose first response is 200 with an empty
body stops at once — one POST issued, running flag false, phase
`"success"` — even though a later 404 response was still queued. -/
theorem racer_success_stops_run_first_response :
    monitor_post_loop 10 0 [(⟨200, true, false⟩, 1), (⟨404, false, false⟩, 1)]
      ⟨true, "posting", none, 0, 0⟩
    = (⟨false, "success", some 200, 1, 1⟩, true) := by
  have h := (racer_success_stops_run 10 0 ⟨200, true, false⟩ 1 [(⟨404, false, false⟩, 1)]
    ⟨true, "posting", none, 0, 0⟩ rfl (by decide) rfl rfl).1
  rw [h]
  decide

/-- Counterexample to claim C6 as stated: the schedule-triggered
time-limited variant (`reservation_task`) invoked with a time limit of 0
does not return with no request issued — Python's `if time_limit and ...`
treats 0 as falsy, so the limit check is skipped and the first loop
iteration dispatches a reservation request. -/
theorem reservation_zero_limit_sends_request :
    reservation_loop (some 0) 1 0 0 1 true 0 = 1 := by decide

/-- Claim C6 (amended): with a duration budget of 0 the poller-invoked
POST retry loop of `monitor_task` exits immediately — no POST issued, not
success, phase back to `"monitoring"` with counters reset (Exhausted);
but in the schedule-triggered variant a `time_limit` of 0 is falsy, hence
identical to `None`: no limit at all, and requests are dispatched while
the running flag is set. -/
theorem racer_zero_budget (now : Nat) (evs : List (Resp × Nat)) (st : RaceSt) :
    monitor_post_phase now now evs st
        = ({ st with cs := "monitoring", lastSC := none, scCount := 0 }, false) ∧
    (∀ step startT now2 fuel r count,
      reservation_loop (some 0) step startT now2 fuel r count
        = reservation_loop none step startT now2 fuel r count) := by
  constructor
  · have hloop : monitor_post_loop now now evs st = (st, false) := by
      cases evs with
      | nil => rfl
      | cons e rest =>
        obtain ⟨r, dt⟩ := e
        unfold monitor_post_loop
        rw [if_neg]
        simp
    unfold monitor_post_phase
    rw [hloop]
  · intro step startT now2 fuel r count
    induction fuel generalizing now2 count with
    | zero => rfl
    | succ n ih =>
      unfold reservation_loop
      simp only [pyTruthyTL]
      cases r with
      | false => simp
      | true => simp [ih]

end Myaku

namespace Myaku

/-! ## Recovery invoker (claim C2) -/

/-- The cookie-health status fields written by
`relogin_and_update_cookie`: validity and message (the last-check
timestamp is omitted as pure wall-clock output). -/
structure CookieMsg where
  valid : Option Bool
  message : String
deriving DecidableEq, Repr

/-- Models Python `str.strip()` (no argument): remove leading and
trailing whitespace characters. -/
def pyStrip (s : List Char) : List Char :=
  ((s.dropWhile Char.isWhitespace).reverse.dropWhile Char.isWhitespace).reverse

/-- Models `settings["cookie"] = new_cookie` followed by
`save_settings(settings)`: replace (or insert) the `cookie` key of the
persisted settings association list.  Credential values are `List Char`. -/
def setCookieKey (settings : List (String × List Char)) (v : List Char) :
    List (String × List Char) :=
  if (List.lookup "cookie" settings).isSome then
    settings.map fun kv => if kv.1 = "cookie" then ("cookie", v) else kv
  else settings ++ [("cookie", v)]

/-- Embedding of `relogin_and_update_cookie` (FullAutoReserver.py lines
146-201, ManualReserver.py lines 252-308).  Inputs: the subprocess
return code, the content of `cookie.txt` if the file exists (`none` when
absent), the persisted settings and the prior cookie status.  The code
prints on a non-zero return code but does not branch on it: it always
proceeds to read `cookie.txt`, and whenever the stripped content is
non-empty it overwrites the stored credential and reports success; only
a missing or blank file yields the failure message with the settings
untouched.  Returns (new settings, new status, returned bool). -/
def relogin_and_update_cookie (returncode : Int) (cookieFile : Option (List Char))
    (settings : List (String × List Char)) (status : CookieMsg) :
    List (String × List Char) × CookieMsg × Bool :=
  match returncode, cookieFile with
  | _, some content =>
    let newCookie := pyStrip content
    if newCookie ≠ [] then
      (setCookieKey settings newCookie, ⟨some true, "✅ 再ログイン成功"⟩, true)
    else (settings, { status with message := "❌ 再ログイン失敗" }, false)
  | _, none => (settings, { status with message := "❌ 再ログイン失敗" }, false)

/-- Counterexample to claim C2 as stated: a run in which the external
re-login collaborator fails with a non-zero exit code while a stale
`cookie.txt` is still present does NOT leave the stored credential
unchanged — the code never branches on the return code, reads the stale
file, overwrites the credential and even reports success. -/
theorem relogin_nonzero_exit_overwrites :
    relogin_and_update_cookie 1 (some ['S', 'T', 'A', 'L', 'E'])
        [("cookie", ['O', 'L', 'D'])] ⟨some false, "x"⟩
      = ([("cookie", ['S', 'T', 'A', 'L', 'E'])], ⟨some true, "✅ 再ログイン成功"⟩, true) ∧
    ([("cookie", ['S', 'T', 'A', 'L', 'E'])] : List (String × List Char))
      ≠ [("cookie", ['O', 'L', 'D'])] := by
  refine ⟨by decide, by decide⟩

/-- Claim C2 (amended): the stored credential is left unchanged, with
only the failure message recorded, exactly in the runs where the cookie
output file is missing or its stripped content is empty; the subprocess
exit code plays no part in that decision. -/
theorem relogin_no_output_leaves_credential (returncode : Int)
    (cookieFile : Option (List Char)) (settings : List (String × List Char))
    (status : CookieMsg)
    (h : cookieFile = none ∨ ∃ c, cookieFile = some c ∧ pyStrip c = []) :
    relogin_and_update_cookie returncode cookieFile settings status
      = (settings, { status with message := "❌ 再ログイン失敗" }, false) := by
  rcases h with h | ⟨c, rfl, hc⟩
  · subst h
    rfl
  · simp [relogin_and_update_cookie, hc]

/-- Witness for the amended claim C2: a blank (whitespace-only)
`cookie.txt` leaves the stored credential `"OLD"` untouched and records
the failure message. -/
theorem relogin_no_output_leaves_credential_blank_file :
    relogin_and_update_cookie 0 (some [' ', ' ']) [("cookie", ['O', 'L', 'D'])]
        ⟨some false, "x"⟩
      = ([("cookie", ['O', 'L', 'D'])], ⟨some false, "❌ 再ログイン失敗"⟩, false) :=
  relogin_no_output_leaves_credential 0 (some [' ', ' ']) [("cookie", ['O', 'L', 'D'])]
    ⟨some false, "x"⟩ (Or.inr ⟨[' ', ' '], rfl, by decide⟩)

end Myaku

namespace Myaku

/-- A persisted schedule entry as `schedule_monitor` reads it: every
field is accessed with `dict.get`, so each is optional. -/
structure ScheduleEntry where
  trigger_time : Option String
  event_code : Option String
  start_time : Option String
  enabled : Option Bool
deriving DecidableEq, Repr

/-- The arguments a fired schedule passes to `reservation_task` relevant
here: the event, the desired slot and the fixed 60-second time limit
(ManualReserver.py lines 535-549). -/
structure StartedTask where
  event_code : String
  start_time : String
  budget : Nat
deriving DecidableEq, Repr

/-- Embedding of one pass of the `for schedule in schedules` body of
`schedule_monitor` (ManualReserver.py lines 513-553) at a given current
minute `tm` and second `sec`, with running flag `running`.  For each
entry, in list order: an entry whose `enabled` (default true) is false
is skipped; otherwise, when its `trigger_time` equals the current minute
and the second is exactly 0 and no racer is running, it fires — the
running flag is set, a 60-second-budget `reservation_task` is started,
and the entry's `enabled` is flipped to false in the list that is then
persisted.  Returns the (persisted) entries paired with a
fired-this-tick marker, the final running flag, and the started tasks. -/
def schedule_tick : List ScheduleEntry → Bool → String → Nat →
    List (ScheduleEntry × Bool) × Bool × List StartedTask
  | [], running, _, _ => ([], running, [])
  | e :: rest, running, tm, sec =>
    if (e.enabled.getD true) = false then
      ((e, false) :: (schedule_tick rest running tm sec).1,
        (schedule_tick rest running tm sec).2)
    else if e.trigger_time.getD "" = tm ∧ sec = 0 ∧ running = false then
      (({ e with enabled := some false }, true) :: (schedule_tick rest true tm sec).1,
        (schedule_tick rest true tm sec).2.1,
        ⟨e.event_code.getD "", e.start_time.getD "", 60⟩
          :: (schedule_tick rest true tm sec).2.2)
    else
      ((e, false) :: (schedule_tick rest running tm sec).1,
        (schedule_tick rest running tm sec).2)

/-- Whether the entry at index `i` fired in a tick result. -/
def firedAt (l : List (ScheduleEntry × Bool)) (i : Nat) : Bool :=
  ((l.get? i).map Prod.snd).getD false

/-- The persisted entry list of a tick result. -/
def entriesOf (l : List (ScheduleEntry × Bool)) : List ScheduleEntry :=
  l.map Prod.fst

/-- Run of the 0.5-second tick loop of `schedule_monitor` over a list of
observed ticks, each supplying the wall clock (current minute, current
second) and the running flag as read at that tick (the flag may have
been cleared asynchronously by a finishing racer between ticks).  Each
tick reloads the schedule list persisted by the previous tick.  Returns
the number of times the entry at index `i` fired across the run. -/
def schedule_run_fires : List (String × Nat × Bool) → List ScheduleEntry → Nat → Nat
  | [], _, _ => 0
  | (tm, sec, r) :: ticks, es, i =>
    (if firedAt (schedule_tick es r tm sec).1 i then 1 else 0)
      + schedule_run_fires ticks (entriesOf (schedule_tick es r tm sec).1) i

theorem schedule_tick_fired_disabled (es : List ScheduleEntry) (r : Bool)
    (tm : String) (sec : Nat) (i : Nat)
    (h : firedAt (schedule_tick es r tm sec).1 i = true) :
    ∃ e, (entriesOf (schedule_tick es r tm sec).1).get? i = some e ∧
      e.enabled = some false := by
  induction es generalizing r i with
  | nil => simp [schedule_tick, firedAt] at h
  | cons e rest ih =>
    by_cases h1 : (e.enabled.getD true) = false
    · rw [schedule_tick, if_pos h1] at h ⊢
      cases i with
      | zero => simp [firedAt] at h
      | succ n =>
        simp only [firedAt, List.get?] at h
        have := ih r n h
        simpa [firedAt, entriesOf] using this
    · by_cases h2 : e.trigger_time.getD "" = tm ∧ sec = 0 ∧ r = false
      · rw [schedule_tick, if_neg h1, if_pos h2] at h ⊢
        cases i with
        | zero =>
          exact ⟨{ e with enabled := some false }, by simp [entriesOf], rfl⟩
        | succ n =>
          simp only [firedAt, List.get?] at h
          have := ih true n h
          simpa [firedAt, entriesOf] using this
      · rw [schedule_tick, if_neg h1, if_neg h2] at h ⊢
        cases i with
        | zero => simp [firedAt] at h
        | succ n =>
          simp only [firedAt, List.get?] at h
          have := ih r n h
          simpa [firedAt, entriesOf] using this

theorem schedule_tick_disabled_stays (es : List ScheduleEntry) (r : Bool)
    (tm : String) (sec : Nat) (i : Nat) (e : ScheduleEntry)
    (hi : es.get? i = some e) (he : e.enabled = some false) :
    firedAt (schedule_tick es r tm sec).1 i = false ∧
      (entriesOf (schedule_tick es r tm sec).1).get? i = some e := by
  induction es generalizing r i with
  | nil => simp at hi
  | cons a rest ih =>
    cases i with
    | zero =>
      simp only [List.get?] at hi
      injection hi with hi
      subst hi
      rw [schedule_tick, if_pos (by simp [he])]
      simp [firedAt, entriesOf]
    | succ n =>
      simp only [List.get?] at hi
      by_cases h1 : (a.enabled.getD true) = false
      · rw [schedule_tick, if_pos h1]
        have := ih r n hi
        simpa [firedAt, entriesOf] using this
      · by_cases h2 : a.trigger_time.getD "" = tm ∧ sec = 0 ∧ r = false
        · rw [schedule_tick, if_neg h1, if_pos h2]
          have := ih true n hi
          simpa [firedAt, entriesOf] using this
        · rw [schedule_tick, if_neg h1, if_neg h2]
          have := ih r n hi
          simpa [firedAt, entriesOf] using this

theorem schedule_tick_none_stays (es : List ScheduleEntry) (r : Bool)
    (tm : String) (sec : Nat) (i : Nat)
    (hi : es.get? i = none) :
    firedAt (schedule_tick es r tm sec).1 i = false ∧
      (entriesOf (schedule_tick es r tm sec).1).get? i = none := by
  induction es generalizing r i with
  | nil => simp [schedule_tick, firedAt, entriesOf]
  | cons a rest ih =>
    cases i with
    | zero => simp at hi
    | succ n =>
      simp only [List.get?] at hi
      by_cases h1 : (a.enabled.getD true) = false
      · rw [schedule_tick, if_pos h1]
        have := ih r n hi
        simpa [firedAt, entriesOf] using this
      · by_cases h2 : a.trigger_time.getD "" = tm ∧ sec = 0 ∧ r = false
        · rw [schedule_tick, if_neg h1, if_pos h2]
          have := ih true n hi
          simpa [firedAt, entriesOf] using this
        · rw [schedule_tick, if_neg h1, if_neg h2]
          have := ih r n hi
          simpa [firedAt, entriesOf] using this

theorem schedule_run_fires_zero_of_disabled
    (ticks : List (String × Nat × Bool)) (es : List ScheduleEntry) (i : Nat)
    (h : (es.get? i = none) ∨ ∃ e, es.get? i = some e ∧ e.enabled = some false) :
    schedule_run_fires ticks es i = 0 := by
  induction ticks generalizing es with
  | nil => rfl
  | cons t ticks ih =>
    obtain ⟨tm, sec, r⟩ := t
    rw [schedule_run_fires]
    rcases h with h | ⟨e, hi, he⟩
    · have := schedule_tick_none_stays es r tm sec i h
      rw [this.1]
      simpa using ih _ (Or.inl this.2)
    · have := schedule_tick_disabled_stays es r tm sec i e hi he
      rw [this.1]
      simpa using ih _ (Or.inr ⟨e, this.2, he⟩)

theorem schedule_run_fires_le_one
    (ticks : List (String × Nat × Bool)) (es : List ScheduleEntry) (i : Nat) :
    schedule_run_fires ticks es i ≤ 1 := by
  induction ticks generalizing es with
  | nil => simp [schedule_run_fires]
  | cons t ticks ih =>
    obtain ⟨tm, sec, r⟩ := t
    rw [schedule_run_fires]
    by_cases hf : firedAt (schedule_tick es r tm sec).1 i = true
    · rw [if_pos hf]
      obtain ⟨e, hi, he⟩ := schedule_tick_fired_disabled es r tm sec i hf
      have := schedule_run_fires_zero_of_disabled ticks
        (entriesOf (schedule_tick es r tm sec).1) i (Or.inr ⟨e, hi, he⟩)
      omega
    · rw [if_neg hf]
      simpa using ih (entriesOf (schedule_tick es r tm sec).1)

end Myaku

namespace Myaku

theorem schedule_tick_running_starts_nothing (es : List ScheduleEntry)
    (tm : String) (sec : Nat) :
    (schedule_tick es true tm sec).2.2 = [] := by
  induction es with
  | nil => rfl
  | cons e rest ih =>
    by_cases h1 : (e.enabled.getD true) = false
    · rw [schedule_tick, if_pos h1]
      exact ih
    · rw [schedule_tick, if_neg h1, if_neg (by simp)]
      exact ih

theorem schedule_tick_budget_60 (es : List ScheduleEntry) (r : Bool)
    (tm : String) (sec : Nat) (t : StartedTask)
    (ht : t ∈ (schedule_tick es r tm sec).2.2) : t.budget = 60 := by
  induction es generalizing r with
  | nil => simp [schedule_tick] at ht
  | cons e rest ih =>
    by_cases h1 : (e.enabled.getD true) = false
    · rw [schedule_tick, if_pos h1] at ht
      exact ih r ht
    · by_cases h2 : e.trigger_time.getD "" = tm ∧ sec = 0 ∧ r = false
      · rw [schedule_tick, if_neg h1, if_pos h2] at ht
        rcases List.mem_cons.mp ht with h | h
        · rw [h]
        · exact ih true h
      · rw [schedule_tick, if_neg h1, if_neg h2] at ht
        exact ih r ht

/-- Claim C3: across any run of the schedule-monitor tick loop, an
entry fires at most once — the firing tick persists the entry with
`enabled = false`, so no later tick (in the same minute or ever) fires
it again; the fire at the head of the list on a matching second-0 tick
with no racer running starts exactly one `reservation_task` with the
fixed 60-second budget, and every task any tick starts carries that
budget. -/
theorem schedule_entry_fires_at_most_once
    (ticks : List (String × Nat × Bool)) (es : List ScheduleEntry) (i : Nat)
    (e : ScheduleEntry) (rest : List ScheduleEntry) (tm : String)
    (hen : e.enabled.getD true = true) (htr : e.trigger_time.getD "" = tm) :
    schedule_run_fires ticks es i ≤ 1 ∧
    firedAt (schedule_tick (e :: rest) false tm 0).1 0 = true ∧
    (entriesOf (schedule_tick (e :: rest) false tm 0).1).get? 0
        = some { e with enabled := some false } ∧
    (schedule_tick (e :: rest) false tm 0).2.2
        = [⟨e.event_code.getD "", e.start_time.getD "", 60⟩] ∧
    (∀ es2 r2 tm2 sec2 t, t ∈ (schedule_tick es2 r2 tm2 sec2).2.2 → t.budget = 60) := by
  have hfire : schedule_tick (e :: rest) false tm 0
      = (({ e with enabled := some false }, true) :: (schedule_tick rest true tm 0).1,
        (schedule_tick rest true tm 0).2.1,
        ⟨e.event_code.getD "", e.start_time.getD "", 60⟩
          :: (schedule_tick rest true tm 0).2.2) := by
    rw [schedule_tick, if_neg (by simp [hen]), if_pos ⟨htr, rfl, rfl⟩]
  refine ⟨schedule_run_fires_le_one ticks es i, ?_, ?_, ?_, ?_⟩
  · rw [hfire]
    rfl
  · rw [hfire]
    rfl
  · rw [hfire]
    simp [schedule_tick_running_starts_nothing]
  · intro es2 r2 tm2 sec2 t ht
    exact schedule_tick_budget_60 es2 r2 tm2 sec2 t ht

/-- Witness for claim C3: an enabled-by-default entry for minute
`07:00` observed by two second-0 ticks of the same minute (the racer
not running at either) fires exactly once. -/
theorem schedule_fires_once_two_ticks :
    schedule_run_fires [("07:00", 0, false), ("07:00", 0, false)]
        [⟨some "07:00", some "H1H9", some "1900", none⟩] 0 ≤ 1 ∧
    schedule_run_fires [("07:00", 0, false), ("07:00", 0, false)]
        [⟨some "07:00", some "H1H9", some "1900", none⟩] 0 = 1 := by
  constructor
  · exact (schedule_entry_fires_at_most_once
      [("07:00", 0, false), ("07:00", 0, false)]
      [⟨some "07:00", some "H1H9", some "1900", none⟩] 0
      ⟨some "07:00", some "H1H9", some "1900", none⟩ [] "07:00"
      (by decide) (by decide)).1
  · decide

/-- Claim C10: a persisted schedule entry that lacks the `enabled`
field entirely is treated as enabled (`dict.get` defaults to true) and
fires on a matching tick, while an entry whose `enabled` is explicitly
false is skipped and persisted unchanged. -/
theorem schedule_missing_enabled_defaults_true
    (e : ScheduleEntry) (rest : List ScheduleEntry) (tm : String)
    (hnone : e.enabled = none) (htr : e.trigger_time.getD "" = tm) :
    firedAt (schedule_tick (e :: rest) false tm 0).1 0 = true ∧
    (∀ (e2 : ScheduleEntry) (rest2 : List ScheduleEntry) (r : Bool) (tm2 : String) (sec : Nat),
      e2.enabled = some false →
      firedAt (schedule_tick (e2 :: rest2) r tm2 sec).1 0 = false ∧
      (entriesOf (schedule_tick (e2 :: rest2) r tm2 sec).1).get? 0 = some e2) := by
  constructor
  · rw [schedule_tick, if_neg (by simp [hnone]), if_pos ⟨htr, rfl, rfl⟩]
    rfl
  · intro e2 rest2 r tm2 sec he2
    rw [schedule_tick, if_pos (by simp [he2])]
    simp [firedAt, entriesOf]

/-- Witness for claim C10: a concrete entry with no `enabled` field
fires on its matching second-0 tick. -/
theorem schedule_missing_enabled_fires :
    firedAt (schedule_tick [⟨some "07:00", some "H1H9", some "1900", none⟩]
      false "07:00" 0).1 0 = true :=
  (schedule_missing_enabled_defaults_true
    ⟨some "07:00", some "H1H9", some "1900", none⟩ [] "07:00" rfl (by decide)).1

end Myaku

namespace Myaku

/-- One availability slot as delivered by the availability GET: a time
string `t` and an availability count `s`. -/
structure Slot where
  t : List Char
  s : Int
deriving DecidableEq, Repr

/-- Inner loop of the availability scan (FullAutoReserver.py lines
359-362): the first slot of a venue's list with `slot["s"] > 0`. -/
def firstAvail : List Slot → Option (List Char)
  | [] => none
  | sl :: rest => if 0 < sl.s then some sl.t else firstAvail rest

/-- Embedding of the scan of `monitor_task` (FullAutoReserver.py lines
356-364): walk the tracked pavilion ids in declared order; for one
present in the availability data, walk its slot list in provided order
and stop at the first slot with positive availability. -/
def find_target : List String → List (String × List Slot) → Option (String × List Char)
  | [], _ => none
  | pid :: rest, data =>
    match List.lookup pid data with
    | some slots =>
      match firstAvail slots with
      | some tm => some (pid, tm)
      | none => find_target rest data
    | none => find_target rest data

/-- Spec-side scan order: venues by declared priority, slots in provided
order, flattened. -/
def scanOrder (pids : List String) (data : List (String × List Slot)) :
    List (String × Slot) :=
  (pids.map fun pid => ((List.lookup pid data).getD []).map fun sl => (pid, sl)).flatten

/-- Spec-side chosen target: the first element of the scan order with a
positive availability count (first-match-wins, not best-match). -/
def chosen_target_spec (pids : List String) (data : List (String × List Slot)) :
    Option (String × List Char) :=
  ((scanOrder pids data).find? fun pr => 0 < pr.2.s).map fun pr => (pr.1, pr.2.t)

/-- The reservation POST body built for a found target
(FullAutoReserver.py lines 374-380): the slot time is passed through
`adjust_time_for_post` before being handed to the POST retry loop. -/
structure Payload where
  ticket_ids : List String
  entrance_date : String
  start_time : List Char
  event_code : String
  registered_channel : String
deriving DecidableEq, Repr

/-- Build the payload for a found `(pavilion, time)` target; `none`
models `adjust_time_for_post` raising. -/
def build_payload (adjustments : List (String × Int)) (tids : List String)
    (ed : String) (pav : String) (tm : List Char) : Option Payload :=
  (adjust_time_for_post adjustments pav tm).map fun st => ⟨tids, ed, st, pav, "5"⟩

theorem firstAvail_spec (pid : String) (slots : List Slot) :
    ((slots.map fun sl => (pid, sl)).find? fun pr => 0 < pr.2.s).map
        (fun pr => (pr.1, pr.2.t))
      = (firstAvail slots).map fun tm => (pid, tm) := by
  induction slots with
  | nil => rfl
  | cons sl rest ih =>
    by_cases h : 0 < sl.s
    · simp [firstAvail, List.find?, h]
    · simp only [List.map_cons, List.find?]
      rw [show (decide (0 < (pid, sl).2.s)) = false by simp [h]]
      rw [firstAvail, if_neg h]
      exact ih

/-- Claim C7: the availability scan is first-match-wins — it equals the
spec's description (first element of the venue-priority/slot-order scan
with a positive count) on every input; on the spec's example data the
chosen target is slot `"1900"` of `H1H9`, and the payload handed to the
racer carries the time-adjusted slot (`"1850"` under a `-10` offset). -/
theorem poller_first_match_wins :
    (∀ pids data, find_target pids data = chosen_target_spec pids data) ∧
    find_target ["H1H9"]
        [("H1H9", [⟨['1', '8', '4', '5'], 0⟩, ⟨['1', '9', '0', '0'], 3⟩])]
      = some ("H1H9", ['1', '9', '0', '0']) ∧
    build_payload [("H1H9", (-10 : Int))] ["T1"] "20251013" "H1H9" ['1', '9', '0', '0']
      = some ⟨["T1"], "20251013", ['1', '8', '5', '0'], "H1H9", "5"⟩ := by
  refine ⟨?_, by decide, by decide⟩
  intro pids data
  induction pids with
  | nil => rfl
  | cons pid rest ih =>
    unfold find_target chosen_target_spec scanOrder
    simp only [List.map_cons, List.flatten_cons]
    rw [List.find?_append]
    cases hl : List.lookup pid data with
    | none =>
      simp only [hl, Option.getD_none, List.map_nil, List.find?_nil, Option.none_or]
      exact ih
    | some slots =>
      simp only [hl, Option.getD_some]
      cases hf : firstAvail slots with
      | none =>
        have hspec := firstAvail_spec pid slots
        rw [hf] at hspec
        simp only [Option.map_none'] at hspec
        have hnone := Option.map_eq_none'.mp hspec
        simp only [hnone, Option.none_or]
        exact ih
      | some tm =>
        have hspec := firstAvail_spec pid slots
        rw [hf] at hspec
        simp only [Option.map_some'] at hspec
        obtain ⟨pr, hpr, hgpr⟩ := Option.map_eq_some'.mp hspec
        rw [hpr]
        simp [hgpr]

end Myaku

namespace Myaku

/-- Program counter of the FullAutoReserver monitor thread: not started
(or joined), at the entry of `monitor_task` (line 341), at the top of
the `while running` poll loop, inside the POST retry loop, between
clearing the running flag and writing `"success"` (lines 412-413), or
returned. -/
inductive MonPC where
  | off
  | entry
  | loopTop
  | postLoop
  | succHalf
  | exited
deriving DecidableEq, Repr

/-- The shared run state of FullAutoReserver: the `running` flag, the
`current_state` string, and the monitor thread's position. -/
structure FAState where
  running : Bool
  cs : String
  pc : MonPC
deriving DecidableEq, Repr

/-- Interleaved small-step transitions of the FullAutoReserver run-state
machine, read off the source: `/start` (lines 1320-1348, guarded by
`if running`), `/stop` (lines 1351-1355, a bare `running = False`), the
assignments of `monitor_task` (lines 341, 344, 366-371, 383-423, 435-436),
with the success branch split into its two consecutive assignments
`running = False` (line 412) and `current_state = "success"` (line 413). -/
inductive FAStep : FAState → FAState → Prop where
  | startReq (s : FAState) : s.running = false → (s.pc = .off ∨ s.pc = .exited) →
      FAStep s ⟨true, "starting", .entry⟩
  | stopReq (s : FAState) : FAStep s { s with running := false }
  | entryStep (s : FAState) : s.pc = .entry →
      FAStep s { s with cs := "monitoring", pc := .loopTop }
  | pollNoSlot (s : FAState) : s.pc = .loopTop → s.running = true → FAStep s s
  | foundSlot (s : FAState) : s.pc = .loopTop → s.running = true →
      FAStep s { s with cs := "posting", pc := .postLoop }
  | postOther (s : FAState) : s.pc = .postLoop → s.running = true → FAStep s s
  | postOk1 (s : FAState) : s.pc = .postLoop → s.running = true →
      FAStep s { s with running := false, pc := .succHalf }
  | postOk2 (s : FAState) : s.pc = .succHalf →
      FAStep s { s with cs := "success", pc := .exited }
  | postBudgetEnd (s : FAState) : s.pc = .postLoop →
      FAStep s { s with cs := "monitoring", pc := .loopTop }
  | loopExit (s : FAState) : s.pc = .loopTop → s.running = false →
      FAStep s { s with cs := "idle", pc := .exited }

/-- States reachable from the initial state (`running = False`,
`current_state = "idle"`, monitor thread not started). -/
inductive FAReachable : FAState → Prop where
  | init : FAReachable ⟨false, "idle", .off⟩
  | step (s s' : FAState) : FAReachable s → FAStep s s' → FAReachable s'

/-- Counterexample to claim C8 as stated: the state with
`running = false` and `current_state = "starting"` is reachable — start
the monitor (`/start` sets `running = True` then
`current_state = "starting"`), then `/stop` clears the flag before the
thread reaches its first assignment.  Its phase is neither `"idle"` nor
`"success"`, so `runningFlag == false` does not imply
`phase ∈ {idle, success}` in every reachable state. -/
theorem run_state_invariant_violated :
    FAReachable ⟨false, "starting", .entry⟩ ∧
    ("starting" ≠ "idle" ∧ "starting" ≠ "success") := by
  constructor
  · have h1 : FAReachable ⟨true, "starting", .entry⟩ :=
      .step _ _ .init (.startReq _ rfl (Or.inl rfl))
    exact .step _ _ h1 (.stopReq _)
  · exact ⟨by decide, by decide⟩

/-- Inductive invariant backing the amended claim C8: whenever the
monitor thread is not mid-execution, the phase is quiescent. -/
def quiescentInv (s : FAState) : Prop :=
  (s.pc = .off → s.cs = "idle") ∧
  (s.pc = .exited → s.cs = "idle" ∨ s.cs = "success")

theorem quiescentInv_reachable (s : FAState) (h : FAReachable s) : quiescentInv s := by
  induction h with
  | init => exact ⟨fun _ => rfl, fun h => by simp at h⟩
  | step s s' _ hstep ih =>
    cases hstep with
    | startReq h1 h2 => exact ⟨fun h => by simp at h, fun h => by simp at h⟩
    | stopReq => exact ih
    | entryStep h1 => exact ⟨fun h => by simp at h, fun h => by simp at h⟩
    | pollNoSlot h1 h2 => exact ih
    | foundSlot h1 h2 => exact ⟨fun h => by simp at h, fun h => by simp at h⟩
    | postOther h1 h2 => exact ih
    | postOk1 h1 h2 => exact ⟨fun h => by simp at h, fun h => by simp at h⟩
    | postOk2 h1 => exact ⟨fun h => by simp at h, fun _ => Or.inr rfl⟩
    | postBudgetEnd h1 => exact ⟨fun h => by simp at h, fun h => by simp at h⟩
    | loopExit h1 h2 => exact ⟨fun h => by simp at h, fun _ => Or.inl rfl⟩

/-- Claim C8 (amended): in every reachable state in which the monitor
thread is not mid-execution (never started, or returned),
`runningFlag == false` implies `phase ∈ {idle, success}`; while the
thread is mid-execution an external `/stop` (or the instant between the
success branch's two assignments) leaves the flag false with the phase
still `"starting"`/`"monitoring"`/`"posting"`. -/
theorem run_state_invariant_quiescent (s : FAState) (h : FAReachable s)
    (hpc : s.pc = .off ∨ s.pc = .exited) (_hr : s.running = false) :
    s.cs = "idle" ∨ s.cs = "success" := by
  have hinv := quiescentInv_reachable s h
  rcases hpc with hpc | hpc
  · exact Or.inl (hinv.1 hpc)
  · exact hinv.2 hpc

/-- Witness for the amended claim C8: the initial state (flag false,
thread off) has phase `"idle"`. -/
theorem run_state_invariant_quiescent_init :
    (⟨false, "idle", .off⟩ : FAState).cs = "idle" ∨
    (⟨false, "idle", .off⟩ : FAState).cs = "success" :=
  run_state_invariant_quiescent ⟨false, "idle", .off⟩ .init (Or.inl rfl) rfl

end Myaku

namespace Myaku

/-- An entry of the invalid-cookie history log: timestamp and
human-readable reason. -/
structure LogEntry where
  time : String
  reason : String
deriving DecidableEq, Repr

/-- The failure reason recorded for a non-200 validation status. -/
def invalidReason (code : Nat) : String :=
  "❌ Cookie無効 (Status: " ++ toString code ++ ")"

/-- Embedding of `check_cookie_validity` (FullAutoReserver.py lines
79-143, ManualReserver.py lines 186-249), restricted to its effect on the
validity result and the bounded invalid-history log.  Inputs: the stored
cookie (empty string means unset, no request is made), the outcome of the
validation GET (`none` for a transport exception), the timestamp string
and the current log.  Only the non-200 branch appends the
timestamp/reason entry; `if len(log) > 100: log.pop(0)` then evicts the
oldest entry. -/
def check_cookie_validity (cookie : String) (resp : Option Nat) (ts : String)
    (log : List LogEntry) : Bool × List LogEntry :=
  if cookie = "" then (false, log)
  else
    match resp with
    | none => (false, log)
    | some code =>
      if code = 200 then (true, log)
      else
        let log1 := log ++ [(⟨ts, invalidReason code⟩ : LogEntry)]
        let log2 := if log1.length > 100 then log1.tail else log1
        (false, log2)

/-- Embedding of one iteration of `cookie_monitor_loop`
(FullAutoReserver.py lines 213-219, ManualReserver.py lines 320-326):
`is_valid = check_cookie_validity(); if not is_valid:
relogin_and_update_cookie()` — the number of recover invocations this
iteration performs. -/
def cookie_monitor_recover_count (isValid : Bool) : Nat :=
  if isValid then 0 else 1

/-- Claim C9: a validation call returning a non-200 status appends
exactly one timestamp/reason entry to the invalid-history log, capped at
100 entries with the oldest evicted first (so a log within capacity
stays within capacity), and the monitor-loop iteration invokes
`recover()` exactly once for the failed check. -/
theorem cookie_invalid_log_bounded
    (cookie : String) (code : Nat) (ts : String) (log : List LogEntry)
    (hc : cookie ≠ "") (h200 : code ≠ 200) (hlen : log.length ≤ 100) :
    (check_cookie_validity cookie (some code) ts log).1 = false ∧
    (check_cookie_validity cookie (some code) ts log).2.length ≤ 100 ∧
    (log.length < 100 →
      (check_cookie_validity cookie (some code) ts log).2
        = log ++ [(⟨ts, invalidReason code⟩ : LogEntry)]) ∧
    (log.length = 100 →
      (check_cookie_validity cookie (some code) ts log).2
        = log.tail ++ [(⟨ts, invalidReason code⟩ : LogEntry)]) ∧
    cookie_monitor_recover_count
        (check_cookie_validity cookie (some code) ts log).1 = 1 := by
  have hred : check_cookie_validity cookie (some code) ts log
      = (false,
        if (log ++ [(⟨ts, invalidReason code⟩ : LogEntry)]).length > 100
        then (log ++ [(⟨ts, invalidReason code⟩ : LogEntry)]).tail
        else log ++ [(⟨ts, invalidReason code⟩ : LogEntry)]) := by
    unfold check_cookie_validity
    rw [if_neg hc]
    simp only [if_neg h200]
  rw [hred]
  refine ⟨rfl, ?_, ?_, ?_, rfl⟩
  · by_cases h : (log ++ [(⟨ts, invalidReason code⟩ : LogEntry)]).length > 100
    · rw [if_pos h]
      simp [List.length_tail] at *
      omega
    · rw [if_neg h]
      simp at h ⊢
      omega
  · intro hlt
    rw [if_neg (by simp; omega)]
  · intro heq
    rw [if_pos (by simp; omega)]
    cases log with
    | nil => simp at heq
    | cons a rest => simp

/-- Witness for claim C9: a 401 validation on an empty log records the
single expected entry and triggers exactly one recover call. -/
theorem cookie_invalid_log_bounded_w :
    (check_cookie_validity "c" (some 401) "12:00:00" []).1 = false ∧
    (check_cookie_validity "c" (some 401) "12:00:00" []).2
        = [(⟨"12:00:00", invalidReason 401⟩ : LogEntry)] ∧
    cookie_monitor_recover_count (check_cookie_validity "c" (some 401) "12:00:00" []).1
        = 1 := by
  have h := cookie_invalid_log_bounded "c" 401 "12:00:00" []
    (by decide) (by decide) (by simp)
  exact ⟨h.1, h.2.2.1 (by simp), h.2.2.2.2⟩

end Myaku
